import Mathlib

/-!
Verification of the `get-wallet-holdings` enrichment pipeline.

The Python source is shallowly embedded: dates are modelled as integer day
numbers (a transaction date parsed to midnight), the current time as a
rational number of days, and float prices as rationals.  Python dictionaries
with string keys become association lists with insert-or-overwrite update,
and Python truthiness of optional strings / numbers is modelled explicitly.
-/

set_option autoImplicit false

namespace WalletHoldings

/-- A market transaction: `{date, price}` from the transactions query.
`day` is the calendar day of the ISO date (the Python code parses only the
date part, so a transaction's timestamp is midnight of its day). -/
structure Tx where
  day : ℤ
  price : ℚ
  deriving DecidableEq, Repr

/-- Mean of a list of rationals, `sum(l) / len(l)`. -/
def listMean (l : List ℚ) : ℚ := l.sum / (l.length : ℚ)

/-- One update step of the Python `defaultdict(list)`:
`daily_prices[day].append(price)`.  A new key is appended at the end
(Python dicts preserve insertion order). -/
def upd (m : List (ℤ × List ℚ)) (d : ℤ) (p : ℚ) : List (ℤ × List ℚ) :=
  match m with
  | [] => [(d, [p])]
  | (d', ps) :: rest => if d' = d then (d', ps ++ [p]) :: rest else (d', ps) :: upd rest d p

/-- The grouping loop of `get_alt_data_async`: fold every transaction into the
per-day price table. -/
def buildDaily (l : List Tx) : List (ℤ × List ℚ) :=
  l.foldl (fun m tx => upd m tx.day tx.price) []

/-- The 15-day window test `tx_date >= fifteen_days_ago` applied to the whole
transaction list (`now` is `datetime.now()` in days). -/
def windowFilter (txs : List Tx) (now : ℚ) : List Tx :=
  txs.filter (fun tx => decide (now - 15 ≤ (tx.day : ℚ)))

/-- The `avg_price` computation of `get_alt_data_async` (lines 122-134):
liquid branch (`supply > 3000`) groups the last 15 days of transactions by
day and averages the daily means; the illiquid branch averages the first
four transactions. -/
def aggregate_price (transactions : List Tx) (supply : ℤ) (now : ℚ) : ℚ :=
  if 3000 < supply then
    let daily_prices := buildDaily (windowFilter transactions now)
    if daily_prices.isEmpty then 0
    else
      let daily_averages := daily_prices.map (fun e => listMean e.2)
      if daily_averages.isEmpty then 0 else listMean daily_averages
  else
    let recent_sales := (transactions.take 4).map Tx.price
    if recent_sales.isEmpty then 0 else listMean recent_sales

/-- Prices of the transactions of day `d` in `l`, in order. -/
def dayPrices (l : List Tx) (d : ℤ) : List ℚ :=
  (l.filter (fun tx => decide (tx.day = d))).map Tx.price

/-- C1: for supply ≤ 3000, `aggregate_price` is the arithmetic mean of the
prices of the first `min 4 n` transactions in input order, and `0` on an
empty transaction list. -/
theorem aggregate_price_illiquid (txs : List Tx) (supply : ℤ) (now : ℚ)
    (h : supply ≤ 3000) :
    aggregate_price txs supply now =
      if txs = [] then 0
      else ((txs.take 4).map Tx.price).sum / ((min 4 txs.length : ℕ) : ℚ) := by
  unfold aggregate_price
  rw [if_neg (by omega : ¬ 3000 < supply)]
  rcases txs with _ | ⟨t, ts⟩
  · simp
  · simp only [List.take_succ_cons, List.map_cons, List.isEmpty_cons, Bool.false_eq_true,
      if_false, reduceCtorEq, listMean]
    congr 1
    have : (t.price :: (ts.take 3).map Tx.price).length = min 4 (t :: ts).length := by
      simp only [List.length_cons, List.length_map, List.length_take]
      omega
    rw [this]

/-- C1 witness: the spec scenario, supply 500 and five transactions with
prices 10, 12, 14, 16, 18 — the mean of the first four is 13. -/
theorem aggregate_price_illiquid_witness :
    (500 : ℤ) ≤ 3000 ∧
      aggregate_price
        [⟨0, 10⟩, ⟨1, 12⟩, ⟨2, 14⟩, ⟨3, 16⟩, ⟨4, 18⟩] 500 0 =
      (if ([⟨0, 10⟩, ⟨1, 12⟩, ⟨2, 14⟩, ⟨3, 16⟩, ⟨4, 18⟩] : List Tx) = [] then 0
       else (((([⟨0, 10⟩, ⟨1, 12⟩, ⟨2, 14⟩, ⟨3, 16⟩, ⟨4, 18⟩] : List Tx).take 4).map Tx.price).sum /
         ((min 4 ([⟨0, 10⟩, ⟨1, 12⟩, ⟨2, 14⟩, ⟨3, 16⟩, ⟨4, 18⟩] : List Tx).length : ℕ) : ℚ))) :=
  ⟨by decide, aggregate_price_illiquid _ 500 0 (by decide)⟩

/-! Characterisation of the per-day grouping fold. -/

/-- Keys (days) of the daily-price table, in insertion order. -/
def keysOf (m : List (ℤ × List ℚ)) : List ℤ := m.map Prod.fst

/-- First-match lookup in the daily-price table. -/
def lookupD (m : List (ℤ × List ℚ)) (d : ℤ) : Option (List ℚ) :=
  match m with
  | [] => none
  | (d', ps) :: rest => if d' = d then some ps else lookupD rest d

/-- Fold of the grouping loop starting from an arbitrary table. -/
def foldlUpd (m : List (ℤ × List ℚ)) (l : List Tx) : List (ℤ × List ℚ) :=
  l.foldl (fun m tx => upd m tx.day tx.price) m

theorem buildDaily_eq_foldlUpd (l : List Tx) : buildDaily l = foldlUpd [] l := rfl

theorem keysOf_upd (m : List (ℤ × List ℚ)) (d : ℤ) (p : ℚ) :
    keysOf (upd m d p) = if d ∈ keysOf m then keysOf m else keysOf m ++ [d] := by
  induction m with
  | nil => simp [upd, keysOf]
  | cons e rest ih =>
    obtain ⟨d', ps⟩ := e
    by_cases hd : d' = d
    · subst hd
      simp [upd, keysOf]
    · simp only [upd, if_neg hd, keysOf, List.map_cons, List.mem_cons]
      rw [keysOf] at ih
      by_cases hmem : d ∈ rest.map Prod.fst
      · simp [ih, keysOf, hmem, Ne.symm hd]
      · simp [ih, keysOf, hmem, Ne.symm hd]

theorem lookupD_upd (m : List (ℤ × List ℚ)) (d : ℤ) (p : ℚ) (d' : ℤ) :
    lookupD (upd m d p) d' =
      if d' = d then some ((lookupD m d).getD [] ++ [p]) else lookupD m d' := by
  induction m with
  | nil =>
    by_cases h : d' = d <;> simp [upd, lookupD, h, Ne.symm]
  | cons e rest ih =>
    obtain ⟨k, ps⟩ := e
    by_cases hk : k = d
    · subst hk
      by_cases h : d' = k
      · simp [upd, lookupD, h]
      · have h2 : ¬ k = d' := fun hh => h hh.symm
        simp [upd, lookupD, h, h2]
    · by_cases h : d' = d
      · subst h
        simp [upd, lookupD, hk, if_neg hk, ih, Ne.symm hk]
      · by_cases hkd : k = d' <;> simp [upd, lookupD, hk, hkd, ih, h]

theorem lookupD_isSome_iff_mem (m : List (ℤ × List ℚ)) (d : ℤ) :
    (lookupD m d).isSome = true ↔ d ∈ keysOf m := by
  induction m with
  | nil => simp [lookupD, keysOf]
  | cons e rest ih =>
    obtain ⟨k, ps⟩ := e
    by_cases hk : k = d
    · subst hk; simp [lookupD, keysOf]
    · simp [lookupD, keysOf, hk, Ne.symm hk, ih]

theorem lookupD_foldlUpd (l : List Tx) :
    ∀ (m : List (ℤ × List ℚ)) (d : ℤ),
      lookupD (foldlUpd m l) d =
        if (lookupD m d).isSome = true ∨ d ∈ l.map Tx.day then
          some ((lookupD m d).getD [] ++ dayPrices l d)
        else none := by
  induction l with
  | nil =>
    intro m d
    cases h : lookupD m d <;> simp [foldlUpd, h, dayPrices]
  | cons t ts ih =>
    intro m d
    have hstep : foldlUpd m (t :: ts) = foldlUpd (upd m t.day t.price) ts := rfl
    rw [hstep, ih]
    by_cases hd : d = t.day
    · have h1 : lookupD (upd m t.day t.price) d =
          some ((lookupD m d).getD [] ++ [t.price]) := by
        rw [lookupD_upd, if_pos hd, hd]
      have h2 : dayPrices (t :: ts) d = t.price :: dayPrices ts d := by
        simp [dayPrices, List.filter_cons, hd]
      rw [h1, h2]
      simp [hd, List.append_assoc]
    · have htd : ¬ t.day = d := fun hh => hd hh.symm
      have h1 : lookupD (upd m t.day t.price) d = lookupD m d := by
        rw [lookupD_upd, if_neg hd]
      have h2 : dayPrices (t :: ts) d = dayPrices ts d := by
        simp [dayPrices, List.filter_cons, htd]
      rw [h1, h2]
      simp [hd]

theorem keysOf_foldlUpd_nodup (l : List Tx) :
    ∀ m : List (ℤ × List ℚ), (keysOf m).Nodup → (keysOf (foldlUpd m l)).Nodup := by
  induction l with
  | nil => intro m hm; exact hm
  | cons t ts ih =>
    intro m hm
    have hstep : foldlUpd m (t :: ts) = foldlUpd (upd m t.day t.price) ts := rfl
    rw [hstep]
    apply ih
    rw [keysOf_upd]
    by_cases hmem : t.day ∈ keysOf m
    · simp [hmem, hm]
    · simp [hmem, List.nodup_append, hm]

theorem mem_keysOf_foldlUpd (l : List Tx) (m : List (ℤ × List ℚ)) (d : ℤ) :
    d ∈ keysOf (foldlUpd m l) ↔ d ∈ keysOf m ∨ d ∈ l.map Tx.day := by
  rw [← lookupD_isSome_iff_mem, lookupD_foldlUpd, ← lookupD_isSome_iff_mem]
  by_cases h : (lookupD m d).isSome = true ∨ d ∈ l.map Tx.day <;> simp [h]

theorem lookupD_of_mem (m : List (ℤ × List ℚ)) (e : ℤ × List ℚ)
    (hnd : (keysOf m).Nodup) (he : e ∈ m) : lookupD m e.1 = some e.2 := by
  induction m with
  | nil => cases he
  | cons f rest ih =>
    obtain ⟨k, ps⟩ := f
    rcases List.mem_cons.mp he with h | h
    · subst h; simp [lookupD]
    · have hk : k ≠ e.1 := by
        intro hkey
        have : e.1 ∈ keysOf rest := List.mem_map_of_mem Prod.fst h
        rw [keysOf, List.map_cons] at hnd
        exact (List.nodup_cons.mp hnd).1 (hkey ▸ this)
      have hrest : (keysOf rest).Nodup := by
        rw [keysOf, List.map_cons] at hnd
        exact (List.nodup_cons.mp hnd).2
      simp [lookupD, hk, ih hrest h]

theorem buildDaily_entry (l : List Tx) (e : ℤ × List ℚ) (he : e ∈ buildDaily l) :
    e.2 = dayPrices l e.1 := by
  have hnd : (keysOf (buildDaily l)).Nodup := by
    rw [buildDaily_eq_foldlUpd]
    exact keysOf_foldlUpd_nodup l [] (by simp [keysOf])
  have h1 : lookupD (buildDaily l) e.1 = some e.2 := lookupD_of_mem _ e hnd he
  have h2 := lookupD_foldlUpd l [] e.1
  rw [← buildDaily_eq_foldlUpd] at h2
  by_cases hmem : e.1 ∈ l.map Tx.day
  · rw [h1] at h2
    simp [lookupD, hmem] at h2
    exact h2
  · rw [h1] at h2
    simp [lookupD, hmem] at h2

/-- C2: for supply > 3000, `aggregate_price` filters transactions to the last
15 days, groups them by calendar day, and returns the mean of the daily mean
prices (0 when no transaction is in the window); on the spec scenario
(supply 4000, prices 10 and 12 on one day and 20 on another, all in window)
the result is 15.5. -/
theorem aggregate_price_liquid :
    (∀ (txs : List Tx) (supply : ℤ) (now : ℚ), 3000 < supply →
      ∃ days : List ℤ, days.Nodup ∧
        (∀ d, d ∈ days ↔ d ∈ (windowFilter txs now).map Tx.day) ∧
        aggregate_price txs supply now =
          if days.isEmpty then 0
          else ((days.map (fun d => listMean (dayPrices (windowFilter txs now) d))).sum) /
            (days.length : ℚ)) ∧
    aggregate_price [⟨0, 10⟩, ⟨0, 12⟩, ⟨1, 20⟩] 4000 1 = 31 / 2 := by
  constructor
  · intro txs supply now h
    refine ⟨keysOf (buildDaily (windowFilter txs now)), ?_, ?_, ?_⟩
    · rw [buildDaily_eq_foldlUpd]
      exact keysOf_foldlUpd_nodup _ [] (by simp [keysOf])
    · intro d
      rw [buildDaily_eq_foldlUpd, mem_keysOf_foldlUpd]
      simp [keysOf]
    · simp only [aggregate_price]
      rw [if_pos h]
      by_cases hemp : (buildDaily (windowFilter txs now)).isEmpty
      · have hnil : buildDaily (windowFilter txs now) = [] := by
          simpa using hemp
        simp [hnil, keysOf]
      · have hnil : buildDaily (windowFilter txs now) ≠ [] := by
          simpa using hemp
        rw [if_neg (by simpa using hnil)]
        rw [if_neg (by simpa using hnil)]
        rw [if_neg (by simp [keysOf, hnil])]
        have hcong : (buildDaily (windowFilter txs now)).map (fun e => listMean e.2) =
            (buildDaily (windowFilter txs now)).map
              (fun e => listMean (dayPrices (windowFilter txs now) e.1)) :=
          List.map_congr_left (fun e he => by rw [buildDaily_entry _ e he])
        have hmm : (keysOf (buildDaily (windowFilter txs now))).map
            (fun d => listMean (dayPrices (windowFilter txs now) d)) =
            (buildDaily (windowFilter txs now)).map
              (fun e => listMean (dayPrices (windowFilter txs now) e.1)) := by
          rw [keysOf, List.map_map]
          rfl
        rw [hcong, hmm]
        unfold listMean
        congr 1
        simp [keysOf]
  · have hw : windowFilter [⟨0, 10⟩, ⟨0, 12⟩, ⟨1, 20⟩] 1 =
        [⟨0, 10⟩, ⟨0, 12⟩, ⟨1, 20⟩] := by
      simp only [windowFilter, List.filter_cons, List.filter_nil]
      norm_num
    norm_num [aggregate_price, hw, buildDaily, upd, listMean]

/-- C2 witness: the liquid-branch characterisation instantiated on the spec
scenario (supply 4000 > 3000). -/
theorem aggregate_price_liquid_witness :
    (3000 : ℤ) < 4000 ∧
      (∃ days : List ℤ, days.Nodup ∧
        (∀ d, d ∈ days ↔ d ∈ (windowFilter [⟨0, 10⟩, ⟨0, 12⟩, ⟨1, 20⟩] 1).map Tx.day) ∧
        aggregate_price [⟨0, 10⟩, ⟨0, 12⟩, ⟨1, 20⟩] 4000 1 =
          if days.isEmpty then 0
          else ((days.map (fun d =>
            listMean (dayPrices (windowFilter [⟨0, 10⟩, ⟨0, 12⟩, ⟨1, 20⟩] 1) d))).sum) /
            (days.length : ℚ)) :=
  ⟨by decide, aggregate_price_liquid.1 _ 4000 1 (by decide)⟩

/-! The supply-by-grade scan of `get_alt_data_async` (lines 116-120). -/

/-- One `cardPops` entry: grading company, grade (serialized as the upstream
string), and population count; any field may be missing. -/
structure CardPop where
  gradingCompany : Option String
  gradeNumber : Option String
  count : Option ℤ
  deriving DecidableEq, Repr

/-- The value of `str(pop.get('gradeNumber'))`: the grade string of an entry
(`str(None)` is `"None"` when the field is missing). -/
def popGradeStr (p : CardPop) : String :=
  match p.gradeNumber with
  | some s => s
  | none => "None"

/-- Digits rendering of a number of tenths, `d/10 "." d%10`. -/
def fmtTenths (n : ℕ) : String := toString (n / 10) ++ "." ++ toString (n % 10)

/-- The Python format `f"{float(grade):.1f}"`: the grade rounded to one
decimal place and rendered with exactly one digit after the point. -/
def fmtGrade (g : ℚ) : String :=
  let n : ℤ := round (g * 10)
  if n < 0 then "-" ++ fmtTenths (-n).toNat else fmtTenths n.toNat

/-- The scan loop: first `cardPops` entry whose grading company equals the
request and whose grade string equals the formatted grade wins (`break`);
its count (default 0) is the supply, and 0 if no entry matches. -/
def lookupSupply (pops : List CardPop) (company : String) (gstr : String) : ℤ :=
  match pops with
  | [] => 0
  | p :: rest =>
    if p.gradingCompany = some company ∧ popGradeStr p = gstr then p.count.getD 0
    else lookupSupply rest company gstr

/-- C3: the supply is taken from the first `cardPops` entry matching the
requested company and the requested grade formatted with one decimal place,
compared by exact string equality (a stored `"9"` does not match the
formatted `"9.0"`), defaulting to 0 when no entry matches. -/
theorem lookupSupply_first_exact_string_match :
    (∀ (pops : List CardPop) (company : String) (g : ℚ),
      lookupSupply pops company (fmtGrade g) =
        ((pops.find? (fun p =>
            decide (p.gradingCompany = some company ∧ popGradeStr p = fmtGrade g))).map
          (fun p => p.count.getD 0)).getD 0) ∧
    fmtGrade 9 = "9.0" ∧ fmtGrade (19 / 2) = "9.5" ∧
    lookupSupply [⟨some "PSA", some "9", some 77⟩] "PSA" (fmtGrade 9) = 0 ∧
    lookupSupply [⟨some "PSA", some "9.0", some 77⟩] "PSA" (fmtGrade 9) = 77 := by
  have h9 : round ((9 : ℚ) * 10) = 90 := by
    rw [round_eq]; norm_num
  have h95 : round ((19 / 2 : ℚ) * 10) = 95 := by
    rw [round_eq]; norm_num
  have hfmt9 : fmtGrade 9 = "9.0" := by
    rw [fmtGrade]
    simp only [h9]
    decide
  have hfmt95 : fmtGrade (19 / 2) = "9.5" := by
    rw [fmtGrade]
    simp only [h95]
    decide
  refine ⟨?_, hfmt9, hfmt95, ?_, ?_⟩
  · intro pops company g
    induction pops with
    | nil => simp [lookupSupply]
    | cons p rest ih =>
      by_cases hc : p.gradingCompany = some company ∧ popGradeStr p = fmtGrade g
      · simp [lookupSupply, hc, List.find?_cons]
      · simp [lookupSupply, hc, List.find?_cons, ih]
  · rw [hfmt9]
    decide
  · rw [hfmt9]
    decide

/-! The valuation resolver (`get_asset_id_async` / `get_alt_data_async`).
Network behaviour is modelled by response records; a `raises` flag stands
for any exception thrown inside the corresponding `try` block. -/

/-- Python truthiness of an optional string (`None` and `""` are falsy). -/
def truthy (s : Option String) : Bool :=
  match s with
  | none => false
  | some s => decide (s ≠ "")

/-- The `asset` object of the identity-lookup response body;
`id` is absent when the key is missing or null. -/
structure AssetObj where
  id : Option String
  deriving DecidableEq, Repr

/-- Outcome of the identity-lookup request: `raises` covers network or
body-parsing exceptions, otherwise a status code and the extracted
`data.cert.asset` object (`none` when absent or null). -/
structure IdResponse where
  raises : Bool
  status : ℕ
  asset : Option AssetObj
  deriving DecidableEq, Repr

/-- Model of `get_asset_id_async`: `None` on exception, non-200 status, missing
asset, or missing id; the asset id otherwise. -/
def get_asset_id_async (r : IdResponse) : Option String :=
  if r.raises then none
  else if r.status ≠ 200 then none
  else
    match r.asset with
    | some a => a.id
    | none => none

/-- Outcome of the two detail queries issued by `get_alt_data_async`:
statuses of the two posts, the extracted valuation/confidence fields and
`cardPops` of the details body, the transaction list, the current time used
by the price window, and a `raises` flag for any exception inside the
enclosing `try`. -/
structure DetailWorld where
  raises : Bool
  detailsStatus : ℕ
  transStatus : ℕ
  currentAltValue : Option ℚ
  currentConfidenceMetric : Option ℚ
  currentErrorLowerBound : Option ℚ
  currentErrorUpperBound : Option ℚ
  cardPops : List CardPop
  transactions : List Tx
  now : ℚ
  deriving DecidableEq, Repr

/-- The normalized record returned by a successful `get_alt_data_async`. -/
structure FetchedRec where
  alt_asset_id : String
  alt_value : ℚ
  avg_price : ℚ
  supply : ℤ
  lower_bound : ℚ
  upper_bound : ℚ
  confidence : ℚ
  deriving DecidableEq, Repr

/-- Model of `get_alt_data_async`: requires both credentials, then the identity
lookup, then a parseable grade (`float(grade)` raising is the `none` case),
then both detail queries to succeed; assembles the normalized valuation
record, defaulting null numeric fields to 0. -/
def get_alt_data_async (auth cookie : Option String) (rid : IdResponse)
    (dw : DetailWorld) (gradeParsed : Option ℚ) (company : String) :
    Option FetchedRec :=
  if ¬ truthy auth ∨ ¬ truthy cookie then none
  else
    match get_asset_id_async rid with
    | none => none
    | some asset_id =>
      match gradeParsed with
      | none => none
      | some grade =>
        if dw.raises then none
        else if dw.detailsStatus ≠ 200 ∨ dw.transStatus ≠ 200 then none
        else
          let supply := lookupSupply dw.cardPops company (fmtGrade grade)
          some { alt_asset_id := asset_id,
                 alt_value := dw.currentAltValue.getD 0,
                 avg_price := aggregate_price dw.transactions supply dw.now,
                 supply := supply,
                 lower_bound := dw.currentErrorLowerBound.getD 0,
                 upper_bound := dw.currentErrorUpperBound.getD 0,
                 confidence := dw.currentConfidenceMetric.getD 0 }

/-- C4: every failure mode of the resolver yields `none` instead of an
error: identity lookup exception, bad status or missing body fields; a
failed identity lookup; a non-200 status on either detail query; and any
exception during detail processing (including an unparseable grade). -/
theorem resolver_fails_silently (auth cookie : Option String)
    (rid : IdResponse) (dw : DetailWorld) (gp : Option ℚ) (company : String) :
    (rid.raises = true → get_asset_id_async rid = none) ∧
    (rid.status ≠ 200 → get_asset_id_async rid = none) ∧
    (rid.asset = none → get_asset_id_async rid = none) ∧
    (get_asset_id_async rid = none →
      get_alt_data_async auth cookie rid dw gp company = none) ∧
    (dw.detailsStatus ≠ 200 ∨ dw.transStatus ≠ 200 →
      get_alt_data_async auth cookie rid dw gp company = none) ∧
    (dw.raises = true → get_alt_data_async auth cookie rid dw gp company = none) ∧
    (gp = none → get_alt_data_async auth cookie rid dw gp company = none) := by
  refine ⟨?_, ?_, ?_, ?_, ?_, ?_, ?_⟩
  · intro h; simp [get_asset_id_async, h]
  · intro h; simp [get_asset_id_async, h]
  · intro h; simp [get_asset_id_async, h]
  · intro h
    unfold get_alt_data_async
    rw [h]
    by_cases hb : ¬ truthy auth = true ∨ ¬ truthy cookie = true
    · rw [if_pos hb]
    · rw [if_neg hb]
  · intro h
    unfold get_alt_data_async
    by_cases hb : ¬ truthy auth = true ∨ ¬ truthy cookie = true
    · rw [if_pos hb]
    · rw [if_neg hb]
      cases hid : get_asset_id_async rid with
      | none => rfl
      | some aid =>
        cases gp with
        | none => rfl
        | some g =>
          by_cases hr : dw.raises = true
          · simp [hr]
          · simp only [if_neg hr]
            rw [if_pos h]
  · intro h
    unfold get_alt_data_async
    by_cases hb : ¬ truthy auth = true ∨ ¬ truthy cookie = true
    · rw [if_pos hb]
    · rw [if_neg hb]
      cases hid : get_asset_id_async rid with
      | none => rfl
      | some aid =>
        cases gp with
        | none => rfl
        | some g => simp [h]
  · intro h
    subst h
    unfold get_alt_data_async
    by_cases hb : ¬ truthy auth = true ∨ ¬ truthy cookie = true
    · rw [if_pos hb]
    · rw [if_neg hb]
      cases hid : get_asset_id_async rid with
      | none => rfl
      | some aid => rfl

/-- C4 witness: a raising identity lookup gives no asset id, and a resolver
run whose detail phase raises returns nothing. -/
theorem resolver_fails_silently_witness :
    get_asset_id_async ⟨true, 200, none⟩ = none ∧
    get_alt_data_async (some "tok") (some "ck") ⟨false, 200, some ⟨some "a1"⟩⟩
      ⟨true, 200, 200, none, none, none, none, [], [], 0⟩ (some 9) "PSA" = none :=
  ⟨(resolver_fails_silently (some "tok") (some "ck") ⟨true, 200, none⟩
      ⟨true, 200, 200, none, none, none, none, [], [], 0⟩ (some 9) "PSA").1 rfl,
   (resolver_fails_silently (some "tok") (some "ck") ⟨false, 200, some ⟨some "a1"⟩⟩
      ⟨true, 200, 200, none, none, none, none, [], [], 0⟩ (some 9) "PSA").2.2.2.2.2.1 rfl⟩

/-! The orchestrator (`main`): inventory tokens, cache lookup, fetch fan-out
for cache misses, merge and response formatting. -/

/-- One entry of a token's attribute list. -/
structure TokenAttr where
  trait_type : Option String
  value : Option String
  deriving DecidableEq, Repr

/-- An inventory token as returned by the marketplace page. -/
structure METoken where
  mintAddress : Option String
  name : Option String
  image : Option String
  attributes : List TokenAttr
  deriving DecidableEq, Repr

/-- The helper `get_attr`: value of the first attribute with the given trait type
(that value may itself be null). -/
def get_attr (attrs : List TokenAttr) (trait : String) : Option String :=
  match attrs with
  | [] => none
  | a :: rest => if a.trait_type = some trait then a.value else get_attr rest trait

/-- A `cartel_data_map` entry: either a DB row's projection (with the
authoritative `db_*` override fields) or a converted fetch result (whose
`db_*` keys are absent). -/
structure CData where
  alt_value : Option ℚ
  cartel_avg : Option ℚ
  supply : Option ℤ
  alt_asset_id : Option String
  alt_range : Option String
  db_name : Option String
  db_grade : Option String
  db_grade_num : Option String
  db_grading_id : Option String
  db_img_url : Option String
  deriving DecidableEq, Repr

/-- The record of a token with no `cartel_data_map` entry (`.get(mint, {})`). -/
def emptyCData : CData :=
  ⟨none, none, none, none, none, none, none, none, none, none⟩

/-- The dictionary `cartel_data_map`, keyed by (possibly missing) mint address. -/
abbrev CMap := List (Option String × CData)

/-- Dictionary read: first entry with the key. -/
def mget (m : CMap) (key : Option String) : Option CData :=
  match m with
  | [] => none
  | (k, v) :: rest => if k = key then some v else mget rest key

/-- Dictionary write: overwrite the existing entry or append a new one. -/
def mset (m : CMap) (key : Option String) (v : CData) : CMap :=
  match m with
  | [] => [(key, v)]
  | (k, w) :: rest => if k = key then (k, v) :: rest else (k, w) :: mset rest key v

/-- Python truthiness of an optional number (`None` and `0` are falsy). -/
def truthyQ (q : Option ℚ) : Bool :=
  match q with
  | none => false
  | some x => decide (x ≠ 0)

/-- Python `a or b` on optional strings. -/
def pyOrS (a b : Option String) : Option String := if truthy a then a else b

/-- The confidence range display string `f"{lb} - {ub}"`. -/
def rangeStr (a b : ℚ) : String := toString a ++ " - " ++ toString b

/-- Conversion of a fetch result into its `cartel_data_map` entry
(`main`, lines 271-277): no `db_*` override fields. -/
def toCData (r : FetchedRec) : CData :=
  { alt_value := some r.alt_value,
    cartel_avg := some r.avg_price,
    supply := some r.supply,
    alt_asset_id := some r.alt_asset_id,
    alt_range := some (rangeStr r.lower_bound r.upper_bound),
    db_name := none, db_grade := none, db_grade_num := none,
    db_grading_id := none, db_img_url := none }

/-- The grading attributes required for a fetch; `none` when any of
certificate id, grade or grading company is missing or empty (the token
then gets the placeholder task producing nothing). -/
def tokenFetchInput (t : METoken) : Option (String × String × String) :=
  match get_attr t.attributes "Grading ID", get_attr t.attributes "The Grade",
      get_attr t.attributes "Grading Company" with
  | some c, some g, some co =>
    if c ≠ "" ∧ g ≠ "" ∧ co ≠ "" then some (c, g, co) else none
  | _, _, _ => none

/-- Step 3 of `main`: per cache-missing token, its mint paired with the
(optional) converted fetch result, in inventory order. -/
def fetchResults (tokens : List METoken) (m0 : CMap)
    (resolve : String → String → String → Option FetchedRec) :
    List (Option String × Option CData) :=
  (tokens.filter (fun t => (mget m0 t.mintAddress).isNone)).map (fun t =>
    (t.mintAddress,
      match tokenFetchInput t with
      | some (c, g, co) => (resolve c g co).map toCData
      | none => none))

/-- Storing the gathered results into `cartel_data_map` in task order,
skipping falsy (`None`) results. -/
def applyFetch (m0 : CMap) (rs : List (Option String × Option CData)) : CMap :=
  rs.foldl (fun m kr =>
    match kr.2 with
    | some v => mset m kr.1 v
    | none => m) m0

/-- The `cartel_data_map` after cache lookup and fetch fan-out. -/
def finalMap (tokens : List METoken) (m0 : CMap)
    (resolve : String → String → String → Option FetchedRec) : CMap :=
  applyFetch m0 (fetchResults tokens m0 resolve)

/-- One formatted response token; `none` in the last four fields is the
`"N/A"` sentinel. -/
structure OutToken where
  mint : Option String
  name : Option String
  grade : Option String
  grading_number : Option String
  supply : Option ℤ
  img : Option String
  alt_value : Option ℚ
  alt_range : Option String
  cartel_avg : Option ℚ
  alt_link : Option String
  deriving DecidableEq, Repr

/-- Step 4 of `main` (lines 281-317): format one token against
`cartel_data_map`, applying the `db_*` overrides and the `or "N/A"`
fallbacks. -/
def formatToken (token : METoken) (m : CMap) : OutToken :=
  let cd := (mget m token.mintAddress).getD emptyCData
  { mint := token.mintAddress,
    name := pyOrS cd.db_name token.name,
    grade := pyOrS cd.db_grade (get_attr token.attributes "The Grade"),
    grading_number := pyOrS cd.db_grade_num (get_attr token.attributes "GradeNum"),
    supply := cd.supply,
    img := pyOrS cd.db_img_url token.image,
    alt_value := if truthyQ cd.alt_value then cd.alt_value else none,
    alt_range := if truthy cd.alt_range then cd.alt_range else none,
    cartel_avg := if truthyQ cd.cartel_avg then cd.cartel_avg else none,
    alt_link := if truthy cd.alt_asset_id then
        cd.alt_asset_id.map (fun aid => "https://alt.xyz/assets/" ++ aid)
      else none }

/-- The response payload: formatted tokens plus the pagination echo. -/
structure EnrichResult where
  wallet : String
  tokens : List OutToken
  count : ℕ
  offset : ℤ
  limit : ℤ
  deriving DecidableEq, Repr

/-- The whole happy-path of `main` after the inventory fetch: cache map in,
fetch fan-out, merge, formatting, pagination echo. -/
def enrich (wallet : String) (offset limit : ℤ) (tokens : List METoken)
    (m0 : CMap) (resolve : String → String → String → Option FetchedRec) :
    EnrichResult :=
  let m := finalMap tokens m0 resolve
  let fts := tokens.map (fun t => formatToken t m)
  ⟨wallet, fts, fts.length, offset, limit⟩

/-- One row of the `listings` cache query. -/
structure DBRow where
  token_mint : String
  alt_value : Option ℚ
  avg_price : Option ℚ
  supply : Option ℤ
  alt_asset_id : Option String
  lower_bound : Option ℚ
  upper_bound : Option ℚ
  name : Option String
  grade : Option String
  grade_num : Option String
  grading_id : Option String
  img_url : Option String
  deriving DecidableEq, Repr

/-- Projection of a cache row into its `cartel_data_map` entry
(`main`, lines 220-232). -/
def rowToCData (r : DBRow) : CData :=
  { alt_value := r.alt_value,
    cartel_avg := r.avg_price,
    supply := r.supply,
    alt_asset_id := r.alt_asset_id,
    alt_range := match r.lower_bound, r.upper_bound with
      | some a, some b => some (rangeStr a b)
      | _, _ => none,
    db_name := r.name, db_grade := r.grade, db_grade_num := r.grade_num,
    db_grading_id := r.grading_id, db_img_url := r.img_url }

/-- The five Postgres connection settings. -/
structure DBConfig where
  host : Option String
  port : Option String
  dbname : Option String
  user : Option String
  password : Option String
  deriving DecidableEq, Repr

/-- The guard `all([host, port, dbname, user, password])`. -/
def cfgComplete (c : DBConfig) : Bool :=
  truthy c.host && truthy c.port && truthy c.dbname && truthy c.user && truthy c.password

/-- Step 2a of `main`: the bulk cache lookup.  `dbResult = none` models the
store being unreachable (any `psycopg2` exception); the guard skips the
query when the mint set is empty or the configuration is incomplete. -/
def cacheLookup (token_mints : List String) (cfg : DBConfig)
    (dbResult : Option (List DBRow)) : CMap :=
  if token_mints ≠ [] ∧ cfgComplete cfg = true then
    match dbResult with
    | some rows => rows.foldl (fun m r => mset m (some r.token_mint) (rowToCData r)) []
    | none => []
  else []

/-! Dictionary lemmas for the merge. -/

theorem mget_mset (m : CMap) (k : Option String) (v : CData) (key : Option String) :
    mget (mset m k v) key = if k = key then some v else mget m key := by
  induction m with
  | nil => by_cases h : k = key <;> simp [mset, mget, h]
  | cons e rest ih =>
    obtain ⟨k', w⟩ := e
    by_cases h1 : k' = k
    · subst h1
      by_cases h2 : k' = key <;> simp [mset, mget, h2]
    · by_cases h2 : k' = key
      · subst h2
        have h3 : ¬ k = k' := fun hh => h1 hh.symm
        simp [mset, mget, h1, h3]
      · simp [mset, mget, h1, h2, ih]

theorem applyFetch_mget (rs : List (Option String × Option CData)) :
    ∀ (m0 : CMap) (key : Option String),
      (∀ pr ∈ rs, pr.1 = key → pr.2 = none) →
      mget (applyFetch m0 rs) key = mget m0 key := by
  induction rs with
  | nil => intro m0 key h; rfl
  | cons pr rest ih =>
    intro m0 key h
    obtain ⟨k, r⟩ := pr
    cases r with
    | none => exact ih m0 key (fun q hq => h q (List.mem_cons_of_mem _ hq))
    | some v =>
      have hne : k ≠ key := by
        intro he
        have := h (k, some v) (List.mem_cons_self _ _) he
        simp at this
      have hrest : ∀ q ∈ rest, q.1 = key → q.2 = none :=
        fun q hq => h q (List.mem_cons_of_mem _ hq)
      show mget (applyFetch (mset m0 k v) rest) key = mget m0 key
      rw [ih (mset m0 k v) key hrest, mget_mset, if_neg hne]

theorem fetchResults_key_not_cached (tokens : List METoken) (m0 : CMap)
    (resolve : String → String → String → Option FetchedRec)
    (pr : Option String × Option CData)
    (h : pr ∈ fetchResults tokens m0 resolve) : mget m0 pr.1 = none := by
  unfold fetchResults at h
  rcases List.mem_map.mp h with ⟨t, ht, rfl⟩
  have := List.of_mem_filter ht
  simpa [Option.isNone_iff_eq_none] using this

/-- Fields of a formatted token that has no `cartel_data_map` entry: the
mint is echoed and every valuation field is the `"N/A"` sentinel. -/
theorem formatToken_no_record (t : METoken) (m : CMap)
    (h : mget m t.mintAddress = none) :
    (formatToken t m).mint = t.mintAddress ∧
    (formatToken t m).alt_value = none ∧
    (formatToken t m).alt_range = none ∧
    (formatToken t m).cartel_avg = none ∧
    (formatToken t m).alt_link = none ∧
    (formatToken t m).supply = none := by
  simp [formatToken, h, emptyCData, truthyQ, truthy]

/-- A key bound in the cache map keeps its cache value in the merged map. -/
theorem mget_finalMap_cached (tokens : List METoken) (m0 : CMap)
    (resolve : String → String → String → Option FetchedRec)
    (key : Option String) (v : CData) (hv : mget m0 key = some v) :
    mget (finalMap tokens m0 resolve) key = some v := by
  rw [finalMap, applyFetch_mget _ m0 _ ?_, hv]
  intro pr hpr he
  have := fetchResults_key_not_cached tokens m0 resolve pr hpr
  rw [he, hv] at this
  cases this

/-- C5: a token whose mint is in the cache-lookup result is never fetched
(no fetch pair carries its mint), its cache record survives the merge, and
the formatted output is computed from the cache-sourced record. -/
theorem cache_precedence (tokens : List METoken) (m0 : CMap)
    (resolve : String → String → String → Option FetchedRec)
    (t : METoken) (v : CData) (ht : t ∈ tokens)
    (hv : mget m0 t.mintAddress = some v) :
    ((fetchResults tokens m0 resolve).all fun pr => decide (pr.1 ≠ t.mintAddress)) = true ∧
    mget (finalMap tokens m0 resolve) t.mintAddress = some v ∧
    formatToken t (finalMap tokens m0 resolve) = formatToken t [(t.mintAddress, v)] := by
  have hall : ∀ pr ∈ fetchResults tokens m0 resolve, pr.1 ≠ t.mintAddress := by
    intro pr hpr he
    have := fetchResults_key_not_cached tokens m0 resolve pr hpr
    rw [he, hv] at this
    cases this
  have hfin : mget (finalMap tokens m0 resolve) t.mintAddress = some v :=
    mget_finalMap_cached tokens m0 resolve t.mintAddress v hv
  refine ⟨?_, hfin, ?_⟩
  · rw [List.all_eq_true]
    intro pr hpr
    exact decide_eq_true (hall pr hpr)
  · simp [formatToken, hfin, mget]

/-- C5 witness: one cached token (valuation 100, supply 50); no fetch pair
targets it and the merge keeps the cache record. -/
theorem cache_precedence_witness :
    (⟨some "m1", some "Card A", none, []⟩ : METoken) ∈
        [(⟨some "m1", some "Card A", none, []⟩ : METoken)] ∧
      mget [(some "m1", (⟨some 100, some 90, some 50, some "a1", some "1 - 2",
          none, none, none, none, none⟩ : CData))] (some "m1") =
        some ⟨some 100, some 90, some 50, some "a1", some "1 - 2",
          none, none, none, none, none⟩ ∧
      (((fetchResults [⟨some "m1", some "Card A", none, []⟩]
          [(some "m1", ⟨some 100, some 90, some 50, some "a1", some "1 - 2",
            none, none, none, none, none⟩)] (fun _ _ _ => none)).all
          fun pr => decide (pr.1 ≠ some "m1")) = true ∧
        mget (finalMap [⟨some "m1", some "Card A", none, []⟩]
          [(some "m1", ⟨some 100, some 90, some 50, some "a1", some "1 - 2",
            none, none, none, none, none⟩)] (fun _ _ _ => none)) (some "m1") =
          some ⟨some 100, some 90, some 50, some "a1", some "1 - 2",
            none, none, none, none, none⟩ ∧
        formatToken ⟨some "m1", some "Card A", none, []⟩
            (finalMap [⟨some "m1", some "Card A", none, []⟩]
              [(some "m1", ⟨some 100, some 90, some 50, some "a1", some "1 - 2",
                none, none, none, none, none⟩)] (fun _ _ _ => none)) =
          formatToken ⟨some "m1", some "Card A", none, []⟩
            [(some "m1", ⟨some 100, some 90, some 50, some "a1", some "1 - 2",
              none, none, none, none, none⟩)]) :=
  ⟨by decide, by decide,
    cache_precedence [⟨some "m1", some "Card A", none, []⟩]
      [(some "m1", ⟨some 100, some 90, some 50, some "a1", some "1 - 2",
        none, none, none, none, none⟩)] (fun _ _ _ => none)
      ⟨some "m1", some "Card A", none, []⟩
      ⟨some 100, some 90, some 50, some "a1", some "1 - 2",
        none, none, none, none, none⟩ (by decide) (by decide)⟩

/-- C6: a token that is absent from the cache and lacks a grading attribute
is still formatted at its original position, with every valuation field set
to the `"N/A"` sentinel. -/
theorem invalid_token_included (w : String) (off lim : ℤ)
    (tokens : List METoken) (m0 : CMap)
    (resolve : String → String → String → Option FetchedRec)
    (t : METoken) (i : ℕ) (hi : i < tokens.length)
    (hnd : (tokens.map METoken.mintAddress).Nodup)
    (ht : tokens.get ⟨i, hi⟩ = t)
    (hcache : mget m0 t.mintAddress = none)
    (hattrs : tokenFetchInput t = none) :
    ∃ hj : i < (enrich w off lim tokens m0 resolve).tokens.length,
      (enrich w off lim tokens m0 resolve).tokens.get ⟨i, hj⟩ =
          formatToken t (finalMap tokens m0 resolve) ∧
        (formatToken t (finalMap tokens m0 resolve)).mint = t.mintAddress ∧
        (formatToken t (finalMap tokens m0 resolve)).alt_value = none ∧
        (formatToken t (finalMap tokens m0 resolve)).alt_range = none ∧
        (formatToken t (finalMap tokens m0 resolve)).cartel_avg = none ∧
        (formatToken t (finalMap tokens m0 resolve)).alt_link = none := by
  have hmem : t ∈ tokens := ht ▸ tokens.get_mem _ _
  have hinj : ∀ x ∈ tokens, ∀ y ∈ tokens, x.mintAddress = y.mintAddress → x = y :=
    List.inj_on_of_nodup_map hnd
  have hfin : mget (finalMap tokens m0 resolve) t.mintAddress = none := by
    rw [finalMap, applyFetch_mget _ m0 _ ?_, hcache]
    intro pr hpr he
    unfold fetchResults at hpr
    rcases List.mem_map.mp hpr with ⟨u, hu, rfl⟩
    have hum : u ∈ tokens := List.mem_of_mem_filter hu
    have : u = t := hinj u hum t hmem (by simpa using he)
    subst this
    simp [hattrs]
  obtain ⟨-, h2, h3, h4, h5, -⟩ := formatToken_no_record t (finalMap tokens m0 resolve) hfin
  refine ⟨by simpa [enrich] using hi, ?_, rfl, h2, h3, h4, h5⟩
  simp only [enrich]
  rw [List.get_map]
  rw [ht]

/-- C6 witness: a wallet page with one fully cached token (valuation 100,
supply 50) and a second token with no cache entry and no grading
attributes; the second is included at position 1 with every valuation field
`"N/A"`, while the first keeps its cached valuation. -/
theorem invalid_token_included_witness :
    ((([(⟨some "m1", some "Card A", none, []⟩ : METoken),
        ⟨some "m2", some "Card B", none, []⟩].map METoken.mintAddress).Nodup ∧
      mget [(some "m1", (⟨some 100, some 90, some 50, some "a1", some "1 - 2",
          none, none, none, none, none⟩ : CData))] (some "m2") = none ∧
      tokenFetchInput ⟨some "m2", some "Card B", none, []⟩ = none) ∧
    (∃ hj : 1 < (enrich "w" 0 20 [⟨some "m1", some "Card A", none, []⟩,
        ⟨some "m2", some "Card B", none, []⟩]
        [(some "m1", ⟨some 100, some 90, some 50, some "a1", some "1 - 2",
          none, none, none, none, none⟩)] (fun _ _ _ => none)).tokens.length,
      (enrich "w" 0 20 [⟨some "m1", some "Card A", none, []⟩,
          ⟨some "m2", some "Card B", none, []⟩]
          [(some "m1", ⟨some 100, some 90, some 50, some "a1", some "1 - 2",
            none, none, none, none, none⟩)] (fun _ _ _ => none)).tokens.get ⟨1, hj⟩ =
          formatToken ⟨some "m2", some "Card B", none, []⟩
            (finalMap [⟨some "m1", some "Card A", none, []⟩,
              ⟨some "m2", some "Card B", none, []⟩]
              [(some "m1", ⟨some 100, some 90, some 50, some "a1", some "1 - 2",
                none, none, none, none, none⟩)] (fun _ _ _ => none)) ∧
        (formatToken ⟨some "m2", some "Card B", none, []⟩
            (finalMap [⟨some "m1", some "Card A", none, []⟩,
              ⟨some "m2", some "Card B", none, []⟩]
              [(some "m1", ⟨some 100, some 90, some 50, some "a1", some "1 - 2",
                none, none, none, none, none⟩)] (fun _ _ _ => none))).mint = some "m2" ∧
        (formatToken ⟨some "m2", some "Card B", none, []⟩
            (finalMap [⟨some "m1", some "Card A", none, []⟩,
              ⟨some "m2", some "Card B", none, []⟩]
              [(some "m1", ⟨some 100, some 90, some 50, some "a1", some "1 - 2",
                none, none, none, none, none⟩)] (fun _ _ _ => none))).alt_value = none ∧
        (formatToken ⟨some "m2", some "Card B", none, []⟩
            (finalMap [⟨some "m1", some "Card A", none, []⟩,
              ⟨some "m2", some "Card B", none, []⟩]
              [(some "m1", ⟨some 100, some 90, some 50, some "a1", some "1 - 2",
                none, none, none, none, none⟩)] (fun _ _ _ => none))).alt_range = none ∧
        (formatToken ⟨some "m2", some "Card B", none, []⟩
            (finalMap [⟨some "m1", some "Card A", none, []⟩,
              ⟨some "m2", some "Card B", none, []⟩]
              [(some "m1", ⟨some 100, some 90, some 50, some "a1", some "1 - 2",
                none, none, none, none, none⟩)] (fun _ _ _ => none))).cartel_avg = none ∧
        (formatToken ⟨some "m2", some "Card B", none, []⟩
            (finalMap [⟨some "m1", some "Card A", none, []⟩,
              ⟨some "m2", some "Card B", none, []⟩]
              [(some "m1", ⟨some 100, some 90, some 50, some "a1", some "1 - 2",
                none, none, none, none, none⟩)] (fun _ _ _ => none))).alt_link = none)) ∧
    (formatToken ⟨some "m1", some "Card A", none, []⟩
        (finalMap [⟨some "m1", some "Card A", none, []⟩,
          ⟨some "m2", some "Card B", none, []⟩]
          [(some "m1", ⟨some 100, some 90, some 50, some "a1", some "1 - 2",
            none, none, none, none, none⟩)] (fun _ _ _ => none))).alt_value = some 100 :=
  ⟨⟨⟨by decide, by decide, by decide⟩,
    invalid_token_included "w" 0 20
      [⟨some "m1", some "Card A", none, []⟩, ⟨some "m2", some "Card B", none, []⟩]
      [(some "m1", ⟨some 100, some 90, some 50, some "a1", some "1 - 2",
        none, none, none, none, none⟩)] (fun _ _ _ => none)
      ⟨some "m2", some "Card B", none, []⟩ 1 (by decide)
      (by decide) (by decide) (by decide) (by decide)⟩,
    by decide⟩

/-- C7: the response token list preserves the inventory page order (its
mints are exactly the inventory mints, in order) for every cache map and
every resolver outcome, and the response echoes offset and limit with
`count` equal to the number of tokens returned. -/
theorem order_and_pagination (w : String) (off lim : ℤ)
    (tokens : List METoken) (m0 : CMap)
    (resolve : String → String → String → Option FetchedRec) :
    (enrich w off lim tokens m0 resolve).tokens.map OutToken.mint =
        tokens.map METoken.mintAddress ∧
      (enrich w off lim tokens m0 resolve).count =
        (enrich w off lim tokens m0 resolve).tokens.length ∧
      (enrich w off lim tokens m0 resolve).count = tokens.length ∧
      (enrich w off lim tokens m0 resolve).offset = off ∧
      (enrich w off lim tokens m0 resolve).limit = lim ∧
      (enrich w off lim tokens m0 resolve).wallet = w := by
  refine ⟨?_, rfl, by simp [enrich], rfl, rfl, rfl⟩
  simp only [enrich, List.map_map]
  exact List.map_congr_left (fun t _ => rfl)

/-- C8: the cache lookup returns an empty map on an empty mint set, on an
incomplete configuration, and on an unreachable store; in the failure case
the request is processed exactly as with an empty cache (external fetches
only), so a cache failure never fails the request. -/
theorem cacheLookup_degrades :
    (∀ (cfg : DBConfig) (db : Option (List DBRow)), cacheLookup [] cfg db = []) ∧
    (∀ (mints : List String) (cfg : DBConfig) (db : Option (List DBRow)),
      cfgComplete cfg = false → cacheLookup mints cfg db = []) ∧
    (∀ (mints : List String) (cfg : DBConfig), cacheLookup mints cfg none = []) ∧
    (∀ (w : String) (off lim : ℤ) (tokens : List METoken)
      (resolve : String → String → String → Option FetchedRec)
      (mints : List String) (cfg : DBConfig),
      enrich w off lim tokens (cacheLookup mints cfg none) resolve =
        enrich w off lim tokens [] resolve) := by
  refine ⟨?_, ?_, ?_, ?_⟩
  · intro cfg db; simp [cacheLookup]
  · intro mints cfg db h; simp [cacheLookup, h]
  · intro mints cfg
    unfold cacheLookup
    split
    · rfl
    · rfl
  · intro w off lim tokens resolve mints cfg
    have h : cacheLookup mints cfg none = [] := by
      unfold cacheLookup
      split
      · rfl
      · rfl
    rw [h]

/-- C8 witness: an unset host makes the configuration incomplete, so the
lookup yields the empty map. -/
theorem cacheLookup_degrades_witness :
    cfgComplete ⟨none, some "5432", some "db", some "u", some "p"⟩ = false ∧
      cacheLookup ["m1"] ⟨none, some "5432", some "db", some "u", some "p"⟩
        (some []) = [] :=
  ⟨by decide,
    cacheLookup_degrades.2.1 ["m1"]
      ⟨none, some "5432", some "db", some "u", some "p"⟩ (some []) (by decide)⟩

/-! Merged-map contents for fetched tokens. -/

theorem applyFetch_append (m : CMap) (rs1 rs2 : List (Option String × Option CData)) :
    applyFetch m (rs1 ++ rs2) = applyFetch (applyFetch m rs1) rs2 := by
  simp [applyFetch, List.foldl_append]

theorem mget_applyFetch_last (m0 : CMap) (k : Option String) (v : CData)
    (rs1 rs2 : List (Option String × Option CData))
    (h2 : ∀ pr ∈ rs2, pr.1 = k → pr.2 = none) :
    mget (applyFetch m0 (rs1 ++ (k, some v) :: rs2)) k = some v := by
  rw [applyFetch_append]
  show mget (applyFetch (mset (applyFetch m0 rs1) k v) rs2) k = some v
  rw [applyFetch_mget rs2 _ k h2, mget_mset, if_pos rfl]

/-- A cache-missing token with complete grading attributes whose resolver
call succeeds ends up with the converted fetch record in the merged map
(unique mints assumed, as inventory pages have). -/
theorem mget_finalMap_fetched (tokens : List METoken) (m0 : CMap)
    (resolve : String → String → String → Option FetchedRec)
    (t : METoken) (ht : t ∈ tokens)
    (hnd : (tokens.map METoken.mintAddress).Nodup)
    (hcache : mget m0 t.mintAddress = none)
    (c g co : String) (r : FetchedRec)
    (hin : tokenFetchInput t = some (c, g, co)) (hres : resolve c g co = some r) :
    mget (finalMap tokens m0 resolve) t.mintAddress = some (toCData r) := by
  obtain ⟨l1, l2, rfl⟩ := List.append_of_mem ht
  have hnotin : t.mintAddress ∉ l2.map METoken.mintAddress := by
    rw [List.map_append, List.map_cons] at hnd
    exact (List.nodup_cons.mp (List.Nodup.of_append_right hnd)).1
  have hfr : fetchResults (l1 ++ t :: l2) m0 resolve =
      ((l1.filter (fun u => (mget m0 u.mintAddress).isNone)).map (fun u =>
        (u.mintAddress,
          match tokenFetchInput u with
          | some (c, g, co) => (resolve c g co).map toCData
          | none => none))) ++
        (t.mintAddress, some (toCData r)) ::
        ((l2.filter (fun u => (mget m0 u.mintAddress).isNone)).map (fun u =>
          (u.mintAddress,
            match tokenFetchInput u with
            | some (c, g, co) => (resolve c g co).map toCData
            | none => none))) := by
    unfold fetchResults
    rw [List.filter_append, List.filter_cons, if_pos (by simp [hcache])]
    rw [List.map_append, List.map_cons]
    simp [hin, hres]
  rw [finalMap, hfr, mget_applyFetch_last]
  intro pr hpr he
  rcases List.mem_map.mp hpr with ⟨u, hu, rfl⟩
  exfalso
  apply hnotin
  have hul2 : u ∈ l2 := List.mem_of_mem_filter hu
  exact he ▸ List.mem_map_of_mem METoken.mintAddress hul2

/-- The confidence range string is never empty (it contains `" - "`). -/
theorem rangeStr_ne_empty (a b : ℚ) : rangeStr a b ≠ "" := by
  unfold rangeStr
  intro h
  have hlen : (toString a ++ " - " ++ toString b).length = 0 := by
    rw [h]
    rfl
  rw [String.length_append, String.length_append] at hlen
  have h3 : (" - " : String).length = 3 := rfl
  omega

/-- C9 counterexample: a token whose cache record carries the stored
valuation value 0 is nevertheless shown with the `"N/A"` sentinel (Python
`or "N/A"` treats 0 as absent), refuting "a token whose cache or fetch
record carries a valuation value is never shown with the unavailable
sentinel". -/
theorem merge_sentinel_zero_counterexample :
    (mget (finalMap [⟨some "m", some "Card C", none, []⟩]
        (cacheLookup ["m"] ⟨some "h", some "p", some "d", some "u", some "pw"⟩
          (some [⟨"m", some 0, some 7, some 5, some "a1", some 1, some 2,
            some "N", some "9", some "9.0", some "c1", some "img"⟩]))
        (fun _ _ _ => none)) (some "m")).isSome = true ∧
      ((mget (finalMap [⟨some "m", some "Card C", none, []⟩]
        (cacheLookup ["m"] ⟨some "h", some "p", some "d", some "u", some "pw"⟩
          (some [⟨"m", some 0, some 7, some 5, some "a1", some 1, some 2,
            some "N", some "9", some "9.0", some "c1", some "img"⟩]))
        (fun _ _ _ => none)) (some "m")).getD emptyCData).alt_value = some 0 ∧
      (formatToken ⟨some "m", some "Card C", none, []⟩
        (finalMap [⟨some "m", some "Card C", none, []⟩]
          (cacheLookup ["m"] ⟨some "h", some "p", some "d", some "u", some "pw"⟩
            (some [⟨"m", some 0, some 7, some 5, some "a1", some 1, some 2,
              some "N", some "9", some "9.0", some "c1", some "img"⟩]))
          (fun _ _ _ => none))).alt_value = none := by
  refine ⟨by decide, by decide, by decide⟩

/-- C9 (amended): per-token, the valuation fields come from the cache
record when cached, else from the converted fetch record when fetched, else
are the sentinel; a field is displayed only when its value is truthy
(nonzero / non-null / non-empty), so a nonzero valuation is never shown as
unavailable, while zero or null values display as the sentinel. -/
theorem merge_field_truthiness :
    (∀ (tokens : List METoken) (m0 : CMap)
      (resolve : String → String → String → Option FetchedRec) (t : METoken) (v : CData),
      mget m0 t.mintAddress = some v →
      (formatToken t (finalMap tokens m0 resolve)).alt_value =
          (if truthyQ v.alt_value then v.alt_value else none) ∧
        (formatToken t (finalMap tokens m0 resolve)).cartel_avg =
          (if truthyQ v.cartel_avg then v.cartel_avg else none) ∧
        (formatToken t (finalMap tokens m0 resolve)).alt_range =
          (if truthy v.alt_range then v.alt_range else none)) ∧
    (∀ (tokens : List METoken) (m0 : CMap)
      (resolve : String → String → String → Option FetchedRec) (t : METoken),
      t ∈ tokens → (tokens.map METoken.mintAddress).Nodup →
      mget m0 t.mintAddress = none →
      ∀ (c g co : String) (r : FetchedRec),
        tokenFetchInput t = some (c, g, co) → resolve c g co = some r →
        (formatToken t (finalMap tokens m0 resolve)).alt_value =
            (if r.alt_value ≠ 0 then some r.alt_value else none) ∧
          (formatToken t (finalMap tokens m0 resolve)).cartel_avg =
            (if r.avg_price ≠ 0 then some r.avg_price else none) ∧
          (formatToken t (finalMap tokens m0 resolve)).alt_range =
            some (rangeStr r.lower_bound r.upper_bound)) ∧
    (∀ (t : METoken) (m : CMap), mget m t.mintAddress = none →
      (formatToken t m).alt_value = none ∧
        (formatToken t m).cartel_avg = none ∧
        (formatToken t m).alt_range = none) ∧
    (∀ (tokens : List METoken) (m0 : CMap)
      (resolve : String → String → String → Option FetchedRec)
      (t : METoken) (v : CData) (q : ℚ),
      mget m0 t.mintAddress = some v → v.alt_value = some q → q ≠ 0 →
      (formatToken t (finalMap tokens m0 resolve)).alt_value = some q) := by
  refine ⟨?_, ?_, ?_, ?_⟩
  · intro tokens m0 resolve t v hv
    have hfin := mget_finalMap_cached tokens m0 resolve t.mintAddress v hv
    refine ⟨?_, ?_, ?_⟩ <;> simp [formatToken, hfin]
  · intro tokens m0 resolve t ht hnd hcache c g co r hin hres
    have hfin := mget_finalMap_fetched tokens m0 resolve t ht hnd hcache c g co r hin hres
    refine ⟨?_, ?_, ?_⟩ <;>
      simp [formatToken, hfin, toCData, truthyQ, truthy, rangeStr_ne_empty]
  · intro t m h
    obtain ⟨-, h1, h2, h3, -, -⟩ := formatToken_no_record t m h
    exact ⟨h1, h3, h2⟩
  · intro tokens m0 resolve t v q hv hq hnz
    have hfin := mget_finalMap_cached tokens m0 resolve t.mintAddress v hv
    simp [formatToken, hfin, hq, truthyQ, hnz]

/-- C9 amended witness: a cached token with nonzero valuation 100 shows
100, and a fetched record with zero valuation shows the sentinel. -/
theorem merge_field_truthiness_witness :
    (mget [(some "m1", (⟨some 100, none, some 50, none, none,
        none, none, none, none, none⟩ : CData))] (some "m1") =
      some ⟨some 100, none, some 50, none, none, none, none, none, none, none⟩) ∧
    ((100 : ℚ) ≠ 0) ∧
    (formatToken ⟨some "m1", some "Card A", none, []⟩
      (finalMap [⟨some "m1", some "Card A", none, []⟩]
        [(some "m1", ⟨some 100, none, some 50, none, none,
          none, none, none, none, none⟩)] (fun _ _ _ => none))).alt_value = some 100 :=
  ⟨by decide, by decide,
    merge_field_truthiness.2.2.2 [⟨some "m1", some "Card A", none, []⟩]
      [(some "m1", ⟨some 100, none, some 50, none, none,
        none, none, none, none, none⟩)] (fun _ _ _ => none)
      ⟨some "m1", some "Card A", none, []⟩
      ⟨some 100, none, some 50, none, none, none, none, none, none, none⟩
      100 (by decide) (by decide) (by decide)⟩

/-- C10: with either credential unset (or empty), `get_alt_data_async`
returns nothing for every input; consequently, with a resolver that always
produces nothing, every token absent from the cache is formatted with the
`"N/A"` sentinel in all valuation fields. -/
theorem no_credentials_all_unavailable (auth cookie : Option String)
    (h : truthy auth = false ∨ truthy cookie = false) :
    (∀ (rid : IdResponse) (dw : DetailWorld) (gp : Option ℚ) (company : String),
      get_alt_data_async auth cookie rid dw gp company = none) ∧
    (∀ (resolve : String → String → String → Option FetchedRec),
      (∀ c g co, resolve c g co = none) →
      ∀ (tokens : List METoken) (m0 : CMap) (t : METoken),
        t ∈ tokens → mget m0 t.mintAddress = none →
        mget (finalMap tokens m0 resolve) t.mintAddress = none ∧
          (formatToken t (finalMap tokens m0 resolve)).alt_value = none ∧
          (formatToken t (finalMap tokens m0 resolve)).alt_range = none ∧
          (formatToken t (finalMap tokens m0 resolve)).cartel_avg = none ∧
          (formatToken t (finalMap tokens m0 resolve)).alt_link = none) := by
  constructor
  · intro rid dw gp company
    unfold get_alt_data_async
    rw [if_pos (by rcases h with h | h <;> simp [h])]
  · intro resolve hres tokens m0 t ht hcache
    have hfin : mget (finalMap tokens m0 resolve) t.mintAddress = none := by
      rw [finalMap, applyFetch_mget _ m0 _ ?_, hcache]
      intro pr hpr he
      rcases List.mem_map.mp hpr with ⟨u, hu, rfl⟩
      cases hin : tokenFetchInput u with
      | none => simp [hin]
      | some trip =>
        obtain ⟨c, g, co⟩ := trip
        simp [hin, hres]
    obtain ⟨-, h1, h2, h3, h4, -⟩ := formatToken_no_record t _ hfin
    exact ⟨hfin, h1, h2, h3, h4⟩

/-- C10 witness: with no auth token the resolver yields nothing even for a
fully valid request, and a cache-missing token with complete grading
attributes is formatted with all valuation fields `"N/A"`. -/
theorem no_credentials_all_unavailable_witness :
    (truthy none = false ∨ truthy (some "ck") = false) ∧
      get_alt_data_async none (some "ck") ⟨false, 200, some ⟨some "a1"⟩⟩
        ⟨false, 200, 200, some 5, some 1, some 1, some 2, [], [], 0⟩
        (some 9) "PSA" = none ∧
      (mget (finalMap [⟨some "m2", some "Card B", none,
          [⟨some "Grading ID", some "c1"⟩, ⟨some "The Grade", some "9"⟩,
            ⟨some "Grading Company", some "PSA"⟩]⟩] [] (fun _ _ _ => none))
          (some "m2") = none ∧
        (formatToken ⟨some "m2", some "Card B", none,
            [⟨some "Grading ID", some "c1"⟩, ⟨some "The Grade", some "9"⟩,
              ⟨some "Grading Company", some "PSA"⟩]⟩
          (finalMap [⟨some "m2", some "Card B", none,
            [⟨some "Grading ID", some "c1"⟩, ⟨some "The Grade", some "9"⟩,
              ⟨some "Grading Company", some "PSA"⟩]⟩] []
            (fun _ _ _ => none))).alt_value = none ∧
        (formatToken ⟨some "m2", some "Card B", none,
            [⟨some "Grading ID", some "c1"⟩, ⟨some "The Grade", some "9"⟩,
              ⟨some "Grading Company", some "PSA"⟩]⟩
          (finalMap [⟨some "m2", some "Card B", none,
            [⟨some "Grading ID", some "c1"⟩, ⟨some "The Grade", some "9"⟩,
              ⟨some "Grading Company", some "PSA"⟩]⟩] []
            (fun _ _ _ => none))).alt_range = none ∧
        (formatToken ⟨some "m2", some "Card B", none,
            [⟨some "Grading ID", some "c1"⟩, ⟨some "The Grade", some "9"⟩,
              ⟨some "Grading Company", some "PSA"⟩]⟩
          (finalMap [⟨some "m2", some "Card B", none,
            [⟨some "Grading ID", some "c1"⟩, ⟨some "The Grade", some "9"⟩,
              ⟨some "Grading Company", some "PSA"⟩]⟩] []
            (fun _ _ _ => none))).cartel_avg = none ∧
        (formatToken ⟨some "m2", some "Card B", none,
            [⟨some "Grading ID", some "c1"⟩, ⟨some "The Grade", some "9"⟩,
              ⟨some "Grading Company", some "PSA"⟩]⟩
          (finalMap [⟨some "m2", some "Card B", none,
            [⟨some "Grading ID", some "c1"⟩, ⟨some "The Grade", some "9"⟩,
              ⟨some "Grading Company", some "PSA"⟩]⟩] []
            (fun _ _ _ => none))).alt_link = none) :=
  ⟨Or.inl rfl,
    (no_credentials_all_unavailable none (some "ck") (Or.inl rfl)).1
      ⟨false, 200, some ⟨some "a1"⟩⟩
      ⟨false, 200, 200, some 5, some 1, some 1, some 2, [], [], 0⟩ (some 9) "PSA",
    (no_credentials_all_unavailable none (some "ck") (Or.inl rfl)).2
      (fun _ _ _ => none) (fun _ _ _ => rfl)
      [⟨some "m2", some "Card B", none,
        [⟨some "Grading ID", some "c1"⟩, ⟨some "The Grade", some "9"⟩,
          ⟨some "Grading Company", some "PSA"⟩]⟩] []
      ⟨some "m2", some "Card B", none,
        [⟨some "Grading ID", some "c1"⟩, ⟨some "The Grade", some "9"⟩,
          ⟨some "Grading Company", some "PSA"⟩]⟩
      (by decide) rfl⟩

end WalletHoldings
